import Mathlib

/-!
Verification of the real-time voice session core of the AI Health Awareness
Assistant (src/components/LiveAssistant.tsx).

The definitions below are a shallow embedding of that component:
* `btoaL` / `atobL` model the browser's `btoa`/`atob` used by `encode`
  (lines 18-25) and `decode` (lines 27-35); `encode` first turns the byte
  array into a binary string via `String.fromCharCode` (identity on byte
  values), so the byte-level pipeline is exactly standard base64.
* `int16sToBytes` / `bytesToInt16s` model the little-endian reinterpretation
  between `Int16Array` and `Uint8Array` buffers (`new Uint8Array(int16.buffer)`
  at line 141 and `new Int16Array(data.buffer)` at line 43).
* `decodeAudioDataE` models `decodeAudioData` (lines 37-54) including its
  failure modes: `new Int16Array(buffer)` raises on an odd byte length, and
  `ctx.createBuffer` raises when the computed frame count is zero; a
  fractional `frameCount` is truncated by the unsigned-long conversion.
* `SessionState` and the functions around it model the component's refs and
  React state together with the `cleanup`, `toggleSession`, `onmessage` and
  `onerror` handlers.
* `TransportState` with `processBlock` / `resolveConn` / `rejectConn` models
  the `onaudioprocess` send path (lines 132-151): every block chains
  `sessionPromise.then(send).catch(cleanup)`, so a block processed before the
  promise settles registers a continuation that fires on settlement.
-/

namespace LiveAssistant

/-! ### Base64 codec (`encode`/`decode`, lines 18-35) -/

/-- The standard base64 alphabet used by `btoa`. -/
def b64Alphabet : List Char :=
  "ABCDEFGHIJKLMNOPQRSTUVWXYZabcdefghijklmnopqrstuvwxyz0123456789+/".toList

/-- Character for one 6-bit group. -/
def sextetToChar (n : Nat) : Char := b64Alphabet.getD n '?'

/-- Inverse lookup in the base64 alphabet, as `atob` performs per character. -/
def charToSextet (c : Char) : Nat := b64Alphabet.indexOf c

/-- `btoa` on a list of byte values (the component's `encode`, lines 18-25,
builds the binary string byte for byte before calling `btoa`). -/
def btoaL : List Nat → List Char
  | [] => []
  | [a] => [sextetToChar (a / 4), sextetToChar (a % 4 * 16), '=', '=']
  | [a, b] => [sextetToChar (a / 4), sextetToChar (a % 4 * 16 + b / 16),
               sextetToChar (b % 16 * 4), '=']
  | a :: b :: c :: rest =>
    sextetToChar (a / 4) :: sextetToChar (a % 4 * 16 + b / 16) ::
    sextetToChar (b % 16 * 4 + c / 64) :: sextetToChar (c % 64) :: btoaL rest

/-- `atob` back to byte values (the component's `decode`, lines 27-35, reads
the decoded binary string back with `charCodeAt`). -/
def atobL : List Char → List Nat
  | x :: y :: z :: w :: rest =>
    if z = '=' then
      [charToSextet x * 4 + charToSextet y / 16]
    else if w = '=' then
      [charToSextet x * 4 + charToSextet y / 16,
       charToSextet y % 16 * 16 + charToSextet z / 4]
    else
      (charToSextet x * 4 + charToSextet y / 16) ::
      (charToSextet y % 16 * 16 + charToSextet z / 4) ::
      (charToSextet z % 4 * 64 + charToSextet w) ::
      atobL rest
  | _ => []

theorem charToSextet_sextetToChar : ∀ n, n < 64 → charToSextet (sextetToChar n) = n := by
  decide

theorem sextetToChar_ne_eq : ∀ n, n < 64 → sextetToChar n ≠ '=' := by
  decide

/-- Base64 round-trip on byte lists. -/
theorem atobL_btoaL : ∀ (bytes : List Nat), (∀ b ∈ bytes, b < 256) →
    atobL (btoaL bytes) = bytes
  | [], _ => rfl
  | [a], h => by
    have ha : a < 256 := h a (by simp)
    have h0 : a / 4 < 64 := by omega
    have h1 : a % 4 * 16 < 64 := by omega
    simp only [btoaL, atobL]
    simp [charToSextet_sextetToChar _ h0, charToSextet_sextetToChar _ h1]
    all_goals omega
  | [a, b], h => by
    have ha : a < 256 := h a (by simp)
    have hb : b < 256 := h b (by simp)
    have h0 : a / 4 < 64 := by omega
    have h1 : a % 4 * 16 + b / 16 < 64 := by omega
    have h2 : b % 16 * 4 < 64 := by omega
    simp only [btoaL, atobL]
    simp [sextetToChar_ne_eq _ h2, charToSextet_sextetToChar _ h0,
          charToSextet_sextetToChar _ h1, charToSextet_sextetToChar _ h2]
    all_goals omega
  | a :: b :: c :: rest, h => by
    have ha : a < 256 := h a (by simp)
    have hb : b < 256 := h b (by simp)
    have hc : c < 256 := h c (by simp)
    have h0 : a / 4 < 64 := by omega
    have h1 : a % 4 * 16 + b / 16 < 64 := by omega
    have h2 : b % 16 * 4 + c / 64 < 64 := by omega
    have h3 : c % 64 < 64 := by omega
    have ih := atobL_btoaL rest (fun x hx =>
      h x (List.mem_cons_of_mem _ (List.mem_cons_of_mem _ (List.mem_cons_of_mem _ hx))))
    simp only [btoaL, atobL]
    simp [sextetToChar_ne_eq _ h2, sextetToChar_ne_eq _ h3,
          charToSextet_sextetToChar _ h0, charToSextet_sextetToChar _ h1,
          charToSextet_sextetToChar _ h2, charToSextet_sextetToChar _ h3, ih]
    all_goals omega

/-! ### 16-bit reinterpretation (`Int16Array` ↔ `Uint8Array`, little-endian) -/

/-- Reading one 16-bit slot (two's complement) as a signed value, as the
`Int16Array` view does. -/
def int16OfNat (u : Nat) : Int := if u < 32768 then (u : Int) else (u : Int) - 65536

/-- The two little-endian bytes of one signed 16-bit sample, as laid out in the
`Int16Array` buffer viewed through `new Uint8Array(int16.buffer)` (line 141). -/
def int16ToBytes (v : Int) : List Nat :=
  [(v % 65536).toNat % 256, (v % 65536).toNat / 256]

/-- Byte image of a sample sequence (the outbound wire payload before base64). -/
def int16sToBytes : List Int → List Nat
  | [] => []
  | v :: rest => int16ToBytes v ++ int16sToBytes rest

/-- `new Int16Array(data.buffer)` (line 43): pair consecutive bytes
little-endian and read each pair as a signed 16-bit value. -/
def bytesToInt16s : List Nat → List Int
  | lo :: hi :: rest => int16OfNat (lo + 256 * hi) :: bytesToInt16s rest
  | _ => []

theorem int16ToBytes_lt (v : Int) : ∀ b ∈ int16ToBytes v, b < 256 := by
  have h1 : 0 ≤ v % 65536 := Int.emod_nonneg v (by norm_num)
  have h2 : v % 65536 < 65536 := Int.emod_lt_of_pos v (by norm_num)
  intro b hb
  simp only [int16ToBytes, List.mem_cons, List.not_mem_nil, or_false] at hb
  rcases hb with h | h <;> omega

theorem int16sToBytes_lt : ∀ (s : List Int), ∀ b ∈ int16sToBytes s, b < 256
  | [], _, hb => by simp [int16sToBytes] at hb
  | v :: rest, b, hb => by
    simp only [int16sToBytes, List.mem_append] at hb
    rcases hb with h | h
    · exact int16ToBytes_lt v b h
    · exact int16sToBytes_lt rest b h

theorem int16OfNat_emod (v : Int) (h1 : -32768 ≤ v) (h2 : v < 32768) :
    int16OfNat (v % 65536).toNat = v := by
  unfold int16OfNat
  split <;> omega

theorem bytesToInt16s_int16ToBytes (v : Int) (rest : List Nat)
    (h1 : -32768 ≤ v) (h2 : v < 32768) :
    bytesToInt16s (int16ToBytes v ++ rest) = v :: bytesToInt16s rest := by
  simp only [int16ToBytes, List.cons_append, List.nil_append, bytesToInt16s]
  have hu : (v % 65536).toNat % 256 + 256 * ((v % 65536).toNat / 256) = (v % 65536).toNat := by
    omega
  rw [hu, int16OfNat_emod v h1 h2]
  simp

/-- Samples survive the byte-level reinterpretation round trip. -/
theorem bytesToInt16s_int16sToBytes : ∀ (s : List Int),
    (∀ v ∈ s, -32768 ≤ v ∧ v < 32768) → bytesToInt16s (int16sToBytes s) = s
  | [], _ => rfl
  | v :: rest, h => by
    have hv := h v (by simp)
    simp only [int16sToBytes]
    rw [bytesToInt16s_int16ToBytes v _ hv.1 hv.2,
        bytesToInt16s_int16sToBytes rest (fun x hx => h x (List.mem_cons_of_mem _ hx))]

theorem bytesToInt16s_length : ∀ (bytes : List Nat),
    (bytesToInt16s bytes).length = bytes.length / 2
  | [] => rfl
  | [_] => by simp [bytesToInt16s]
  | _ :: _ :: rest => by
    simp only [bytesToInt16s, List.length_cons, bytesToInt16s_length rest]
    omega

/-! ### `decodeAudioData` (lines 37-54) -/

/-- Failure of the inbound audio decode path: `new Int16Array(buffer)` raises a
`RangeError` on an odd byte length, and `ctx.createBuffer` raises a
`NotSupportedError` when the frame count (after the unsigned-long truncation of
`dataInt16.length / numChannels`) is zero. -/
inductive CodecError
  | malformed
deriving DecidableEq

def isOkE {α : Type} : Except CodecError α → Bool
  | .ok _ => true
  | .error _ => false

/-- `decodeAudioData` (lines 37-54) as a fallible pure function: reinterpret the
bytes as signed 16-bit samples, compute the frame count, and de-interleave the
channels, scaling each sample by 1/32768 (line 50).  A fractional
`frameCount` is truncated by the WebIDL unsigned-long conversion at
`createBuffer`, so only whole frames are produced. -/
def decodeAudioDataE (bytes : List Nat) (numChannels : Nat) :
    Except CodecError (List (List ℚ)) :=
  if bytes.length % 2 ≠ 0 then .error .malformed
  else
    let dataInt16 := bytesToInt16s bytes
    let frameCount := dataInt16.length / numChannels
    if frameCount = 0 then .error .malformed
    else
      .ok ((List.range numChannels).map fun channel =>
        (List.range frameCount).map fun i =>
          ((dataInt16.getD (i * numChannels + channel) 0 : Int) : ℚ) / 32768)

/-- The channel split of `decodeAudioData`'s copy loop (lines 47-52), at the
16-bit sample level: channel `channel` receives `dataInt16[i*numChannels+channel]`. -/
def deinterleave (numChannels : Nat) (data : List Int) : List (List Int) :=
  (List.range numChannels).map fun channel =>
    (List.range (data.length / numChannels)).map fun i =>
      data.getD (i * numChannels + channel) 0

theorem getD_range_map {α : Type} (f : Nat → α) (n i : Nat) (d : α) (h : i < n) :
    ((List.range n).map f).getD i d = f i := by
  rw [List.getD_eq_getElem?_getD, List.getElem?_eq_getElem (by simpa using h)]
  simp

theorem deinterleave_getD (numChannels : Nat) (s : List Int)
    (hnc : 0 < numChannels) (hlen : s.length % numChannels = 0)
    (j : Nat) (hj : j < s.length) :
    ((deinterleave numChannels s).getD (j % numChannels) []).getD (j / numChannels) 0 =
      s.getD j 0 := by
  have h1 : j % numChannels < numChannels := Nat.mod_lt _ hnc
  have h2 : j / numChannels < s.length / numChannels :=
    Nat.div_lt_div_of_lt_of_dvd (Nat.dvd_of_mod_eq_zero hlen) hj
  unfold deinterleave
  rw [getD_range_map _ _ _ _ h1, getD_range_map _ _ _ _ h2]
  congr 1
  rw [Nat.mul_comm]
  exact Nat.div_add_mod j numChannels

/-! ### Session state (React state and refs of the component) -/

/-- The component's mutable state: `isActive`, `isConnecting`, `transcription`,
`errorMsg` (React state, lines 6-9) and the refs `sessionPromiseRef`,
`streamRef`, `audioContextsRef`, `sourcesRef`, `nextStartTimeRef`
(lines 11-15).  Ref cells holding nullable handles are modelled by a `Bool`
recording whether the handle is present; the set of scheduled
`AudioBufferSourceNode`s by a list of handle ids. -/
structure SessionState where
  isActive : Bool
  isConnecting : Bool
  transcription : String
  errorMsg : Option String
  sessionPromise : Bool
  stream : Bool
  audioContexts : Bool
  sources : List Nat
  nextStart : ℚ
deriving DecidableEq

/-- `cleanup` (lines 56-84): clear the activity flags, close and drop the
session, stop and drop the microphone stream, close and drop both audio
contexts, stop and clear every scheduled source, and reset the playback
cursor.  `errorMsg` and `transcription` are not touched. -/
def cleanupS (s : SessionState) : SessionState :=
  { s with
    isActive := false
    isConnecting := false
    sessionPromise := false
    stream := false
    audioContexts := false
    sources := []
    nextStart := 0 }

/-- The interruption branch of `onmessage` (lines 181-187): stop every
scheduled source, clear the set, and reset the cursor to 0. -/
def flushPlayback (s : SessionState) : SessionState :=
  { s with sources := [], nextStart := 0 }

/-- The audio branch of `onmessage` (lines 163-178): bump the cursor to
`max(nextStart, currentTime)`, decode the chunk (24 kHz, 1 channel), and on
success schedule it at the bumped cursor and advance the cursor by the chunk's
duration (`frameCount / 24000`).  If `decodeAudioData` raises, the chunk is
dropped: the `await` rejects after the cursor bump and nothing else in the
handler runs. -/
def handleAudioMessage (s : SessionState) (now : ℚ) (bytes : List Nat) : SessionState :=
  match decodeAudioDataE bytes 1 with
  | .error _ => { s with nextStart := max s.nextStart now }
  | .ok channels =>
    let start := max s.nextStart now
    let dur : ℚ := ((channels.headD []).length : ℚ) / 24000
    { s with nextStart := start + dur, sources := s.sources ++ [s.sources.length] }

/-- The device time handed to `source.start` for a chunk arriving at device
time `now` (lines 165 and 175): `max(nextStartTime, currentTime)`. -/
def chunkStart (s : SessionState) (now : ℚ) : ℚ := max s.nextStart now

/-- `onerror` (lines 189-197): record the user-visible message, then tear the
session down. -/
def onError (msg : String) (s : SessionState) : SessionState :=
  cleanupS { s with errorMsg := some msg }

/-- Outcome of the asynchronous start path (lines 102-221): either every
acquisition step succeeds and the connection attempt is initiated, or some step
throws and the `catch` block records the error and cleans up. -/
inductive StartOutcome
  | success
  | failure (msg : String)
deriving DecidableEq

/-- `toggleSession` (lines 92-222).  A toggle while active or connecting only
tears the existing session down (lines 93-96).  Otherwise the start path sets
`isConnecting`, clears `errorMsg` and the transcript (lines 98-100), then
either acquires the stream, the contexts and the connection promise
(lines 110-214) or, on a thrown error, records the message and cleans up
(lines 216-221). -/
def toggleSession (out : StartOutcome) (s : SessionState) : SessionState :=
  if s.isActive || s.isConnecting then cleanupS s
  else
    let s1 : SessionState :=
      { s with isConnecting := true, errorMsg := none, transcription := "" }
    match out with
    | .success => { s1 with stream := true, audioContexts := true, sessionPromise := true }
    | .failure msg => cleanupS { s1 with errorMsg := some msg }

/-! ### Capture-side transport (`onaudioprocess`, lines 132-151)

Each captured block is scaled to 16-bit (line 137), packed into a base64
packet (lines 140-143), and then chained on the connection promise:
`sessionPromise.then(session => session.sendRealtimeInput(...)).catch(() => cleanup())`
(lines 145-150).  Per JavaScript promise semantics, the continuation fires
when the promise settles: immediately if it is already settled, later
otherwise.  `TransportState` records the registered-but-unsettled
continuations (`pending`), the packets actually handed to
`sendRealtimeInput` (`sent`), and how many times the `catch` branch has
invoked `cleanup` (`cleanups`). -/

/-- Truncation toward zero, the first step of JavaScript's ToInt16 conversion
applied when storing into an `Int16Array`. -/
def truncTowardZero (q : ℚ) : Int := if 0 ≤ q then ⌊q⌋ else -⌊-q⌋

/-- The modular wrap to a signed 16-bit value, the second step of ToInt16. -/
def toInt16 (n : Int) : Int := int16OfNat (n % 65536).toNat

/-- Line 137, `int16[i] = inputData[i] * 32768`: scale the float sample and
store it through the `Int16Array` conversion. -/
def outboundSample (x : ℚ) : Int := toInt16 (truncTowardZero (x * 32768))

/-- Lines 133-143: scale the captured block to 16-bit samples and base64-encode
their little-endian bytes (the packet's data; its MIME tag is the constant
string at line 142). -/
def encodeBlock (samples : List ℚ) : List Char :=
  btoaL (int16sToBytes (samples.map outboundSample))

/-- Settlement status of `sessionPromise` as seen by one `onaudioprocess`
callback. -/
inductive ConnState
  | unresolved
  | resolved
  | failed
deriving DecidableEq

structure TransportState where
  pending : List (List Char)
  sent : List (List Char)
  cleanups : Nat
deriving DecidableEq

def initTransport : TransportState := { pending := [], sent := [], cleanups := 0 }

/-- One `onaudioprocess` callback (lines 132-151) against a settled or
unsettled connection promise: if the promise is already fulfilled the packet is
sent now; if it is still pending the `.then` continuation (closing over the
packet) is registered and fires on settlement; if it is already rejected the
`.catch` branch runs `cleanup()`. -/
def processBlock (conn : ConnState) (st : TransportState) (samples : List ℚ) :
    TransportState :=
  match conn with
  | .resolved => { st with sent := st.sent ++ [encodeBlock samples] }
  | .unresolved => { st with pending := st.pending ++ [encodeBlock samples] }
  | .failed => { st with cleanups := st.cleanups + 1 }

/-- The connection promise fulfills: every registered `.then` continuation
fires and hands its packet to `sendRealtimeInput`. -/
def resolveConn (st : TransportState) : TransportState :=
  { st with sent := st.sent ++ st.pending, pending := [] }

/-- The connection promise rejects: every registered chain skips its `.then`
and runs its `.catch`, i.e. one `cleanup()` call per registered block; none of
the pending packets is ever sent. -/
def rejectConn (st : TransportState) : TransportState :=
  { st with pending := [], cleanups := st.cleanups + st.pending.length }

/-! ### Concrete states used by witnesses and counterexamples -/

def demoIdleState : SessionState :=
  { isActive := false, isConnecting := false, transcription := "", errorMsg := none,
    sessionPromise := false, stream := false, audioContexts := false,
    sources := [], nextStart := 0 }

def demoActiveState : SessionState :=
  { isActive := true, isConnecting := false, transcription := "hello", errorMsg := none,
    sessionPromise := true, stream := true, audioContexts := true,
    sources := [0, 1], nextStart := 2 }

def demoErrorState : SessionState :=
  { demoIdleState with errorMsg := some "boom" }

/-! ### Helper lemmas -/

theorem decodeAudioDataE_ok (bytes : List Nat)
    (h2 : bytes.length % 2 = 0) (h0 : bytes.length ≠ 0) :
    decodeAudioDataE bytes 1 =
      .ok [(List.range (bytes.length / 2)).map fun i =>
            (((bytesToInt16s bytes).getD i 0 : Int) : ℚ) / 32768] := by
  have hlen : (bytesToInt16s bytes).length = bytes.length / 2 := bytesToInt16s_length bytes
  unfold decodeAudioDataE
  rw [if_neg (by omega)]
  simp only [Nat.div_one, hlen]
  rw [if_neg (by omega)]
  simp [List.range_succ]

theorem handleAudioMessage_ok (s : SessionState) (now : ℚ) (bytes : List Nat)
    (h2 : bytes.length % 2 = 0) (h0 : bytes.length ≠ 0) :
    handleAudioMessage s now bytes =
      { s with
        nextStart := max s.nextStart now + ((bytes.length / 2 : Nat) : ℚ) / 24000,
        sources := s.sources ++ [s.sources.length] } := by
  unfold handleAudioMessage
  rw [decodeAudioDataE_ok bytes h2 h0]
  simp

theorem handleAudioMessage_nextStart_mono (s : SessionState) (now : ℚ) (bytes : List Nat) :
    s.nextStart ≤ (handleAudioMessage s now bytes).nextStart := by
  unfold handleAudioMessage
  cases hd : decodeAudioDataE bytes 1 with
  | error e => simp only; exact le_max_left _ _
  | ok channels =>
    simp only
    have hdur : (0 : ℚ) ≤ ((channels.headD []).length : ℚ) / 24000 := by positivity
    calc s.nextStart ≤ max s.nextStart now := le_max_left _ _
      _ ≤ max s.nextStart now + ((channels.headD []).length : ℚ) / 24000 := by linarith

theorem handleAudioMessage_foldl_mono :
    ∀ (evs : List (ℚ × List Nat)) (s : SessionState),
      s.nextStart ≤ (evs.foldl (fun st e => handleAudioMessage st e.1 e.2) s).nextStart
  | [], _ => le_refl _
  | e :: evs, s =>
    le_trans (handleAudioMessage_nextStart_mono s e.1 e.2)
      (handleAudioMessage_foldl_mono evs (handleAudioMessage s e.1 e.2))

/-! ### Claims -/

/-- C1: Codec round-trip identity.  For every finite sequence `s` of signed
16-bit samples whose length is a multiple of the channel count, decoding the
encoded wire form of `s` — base64 decode of `encode`'s output, then 16-bit
reinterpretation and channel de-interleaving — yields exactly `s`: the
reinterpreted sample list equals `s`, and de-interleaving places sample `j` at
channel `j % numChannels`, frame `j / numChannels`. -/
theorem c1_codec_roundtrip (s : List Int) (numChannels : Nat)
    (hnc : 0 < numChannels) (hlen : s.length % numChannels = 0)
    (hrange : ∀ v ∈ s, -32768 ≤ v ∧ v < 32768) :
    bytesToInt16s (atobL (btoaL (int16sToBytes s))) = s ∧
    ∀ j, j < s.length →
      ((deinterleave numChannels
          (bytesToInt16s (atobL (btoaL (int16sToBytes s))))).getD
            (j % numChannels) []).getD (j / numChannels) 0 = s.getD j 0 := by
  have hb64 : atobL (btoaL (int16sToBytes s)) = int16sToBytes s :=
    atobL_btoaL _ (int16sToBytes_lt s)
  have hflat : bytesToInt16s (atobL (btoaL (int16sToBytes s))) = s := by
    rw [hb64]; exact bytesToInt16s_int16sToBytes s hrange
  refine ⟨hflat, fun j hj => ?_⟩
  rw [hflat]
  exact deinterleave_getD numChannels s hnc hlen j hj

theorem c1_codec_roundtrip_witness :
    bytesToInt16s (atobL (btoaL (int16sToBytes [1, -2, 3, 4]))) = [1, -2, 3, 4] :=
  (c1_codec_roundtrip [1, -2, 3, 4] 2 (by decide) (by decide) (by decide)).1

/-- C2, counterexample: the claim says decode fails with `CodecError` exactly
when the byte length is not a multiple of `2 × channelCount`.  But for
channel count 2 a byte length of 6 — not a multiple of 4 — decodes
successfully: the fractional frame count `1.5` is silently truncated to one
whole frame by the unsigned-long conversion at `createBuffer`, so no error is
raised. -/
theorem c2_counterexample :
    (6 % (2 * 2) ≠ 0) ∧ isOkE (decodeAudioDataE [0, 0, 0, 0, 0, 0] 2) = true := by
  constructor
  · decide
  · rfl

/-- C2, amended: at the channel count 1 actually passed by `onmessage`
(line 166), decode fails exactly when the byte length is odd (`Int16Array`
construction) or zero (`createBuffer` with length 0); and when decode fails the
chunk is dropped without tearing the session down — the handler's only effect
is the already-performed cursor bump, so the session stays live.  For channel
counts above 1, an even byte length that is not a multiple of
`2 × channelCount` is silently truncated to whole frames, not an error. -/
theorem c2_amended_decode_failure :
    (∀ bytes : List Nat,
      isOkE (decodeAudioDataE bytes 1) = true ↔
        (bytes.length % 2 = 0 ∧ bytes.length ≠ 0)) ∧
    (∀ (s : SessionState) (now : ℚ) (bytes : List Nat),
      isOkE (decodeAudioDataE bytes 1) = false →
        handleAudioMessage s now bytes = { s with nextStart := max s.nextStart now }) := by
  constructor
  · intro bytes
    have hlen : (bytesToInt16s bytes).length = bytes.length / 2 := bytesToInt16s_length bytes
    unfold decodeAudioDataE
    constructor
    · intro h
      by_contra hc
      rw [not_and_or] at hc
      rcases hc with hc | hc
      · rw [if_pos hc] at h
        simp [isOkE] at h
      · have h0 : bytes.length = 0 := by omega
        rw [if_neg (by omega)] at h
        simp only [Nat.div_one, hlen] at h
        rw [if_pos (by omega)] at h
        simp [isOkE] at h
    · rintro ⟨h2, h0⟩
      rw [if_neg (by omega)]
      simp only [Nat.div_one, hlen]
      rw [if_neg (by omega)]
      rfl
  · intro s now bytes h
    unfold handleAudioMessage
    cases hd : decodeAudioDataE bytes 1 with
    | error e => rfl
    | ok channels => rw [hd] at h; simp [isOkE] at h

theorem c2_amended_decode_failure_witness :
    isOkE (decodeAudioDataE [0, 0, 0, 0] 1) = true ∧
    handleAudioMessage demoActiveState 5 [0, 0, 0] =
      { demoActiveState with nextStart := max demoActiveState.nextStart 5 } :=
  ⟨(c2_amended_decode_failure.1 [0, 0, 0, 0]).mpr (by decide),
   c2_amended_decode_failure.2 demoActiveState 5 [0, 0, 0] (by rfl)⟩

/-- C3: Gap-free playback scheduling.  Each inbound chunk starts at
`max(nextStart, currentTime)` and `nextStart` then advances by the chunk's
duration.  For a 4800-byte (100 ms at 24 kHz mono) chunk scheduled at device
time `now1`, a second chunk arriving at device time `now2` while the first is
still scheduled (`now2 ≤ first start + 0.1`) starts exactly at the first
chunk's start time plus 0.1 s, not at its arrival time. -/
theorem c3_gap_free_scheduling (s : SessionState) (now1 now2 : ℚ) (b1 : List Nat)
    (hb1 : b1.length = 4800)
    (harrive : now2 ≤ chunkStart s now1 + 1 / 10) :
    chunkStart (handleAudioMessage s now1 b1) now2 = chunkStart s now1 + 1 / 10 := by
  have h := handleAudioMessage_ok s now1 b1 (by omega) (by omega)
  have hdur : ((b1.length / 2 : Nat) : ℚ) / 24000 = 1 / 10 := by
    rw [hb1]; norm_num
  unfold chunkStart at harrive ⊢
  rw [h]
  simp only [hdur]
  exact max_eq_left harrive

theorem c3_gap_free_scheduling_witness :
    chunkStart (handleAudioMessage demoIdleState 0 (List.replicate 4800 0)) (1 / 100) =
      chunkStart demoIdleState 0 + 1 / 10 :=
  c3_gap_free_scheduling demoIdleState 0 (1 / 100) (List.replicate 4800 0)
    (by rw [List.length_replicate]) (by norm_num [chunkStart, demoIdleState])

/-- C4: Playback-cursor invariant.  Across any sequence of schedule calls with
no intervening flush, the cursor `nextStart` never decreases (stepwise and
hence over any event sequence), and immediately after a flush — the
interruption branch of `onmessage` or the teardown in `cleanup` — `nextStart`
is exactly 0, so the next chunk schedules relative to the live device clock. -/
theorem c4_cursor_invariant :
    (∀ (s : SessionState) (now : ℚ) (bytes : List Nat),
      s.nextStart ≤ (handleAudioMessage s now bytes).nextStart) ∧
    (∀ (s : SessionState) (evs : List (ℚ × List Nat)),
      s.nextStart ≤ (evs.foldl (fun st e => handleAudioMessage st e.1 e.2) s).nextStart) ∧
    (∀ s : SessionState, (flushPlayback s).nextStart = 0) ∧
    (∀ s : SessionState, (cleanupS s).nextStart = 0) :=
  ⟨handleAudioMessage_nextStart_mono,
   fun s evs => handleAudioMessage_foldl_mono evs s,
   fun _ => rfl,
   fun _ => rfl⟩

/-- C5, counterexample: the claim says a block processed while the connection
promise has not yet resolved has its packet dropped, never transmitted after
the promise resolves.  But `sessionPromise.then(send)` registers a
continuation: the packet of a block processed while unresolved is not sent at
that moment, yet it is handed to `sendRealtimeInput` as soon as the promise
fulfills. -/
theorem c5_counterexample :
    (processBlock ConnState.unresolved initTransport [0]).sent = [] ∧
    (resolveConn (processBlock ConnState.unresolved initTransport [0])).sent =
      [encodeBlock [0]] ∧
    ([encodeBlock [0]] : List (List Char)) ≠ [] :=
  ⟨rfl, rfl, by simp⟩

/-- C5, amended: a block processed while the connection promise is unresolved
has its packet queued on the promise (registered `.then` continuation), not
dropped; every queued packet is transmitted when the promise resolves.
Packets are dropped only when the promise has failed: a block processed after
rejection is never sent (its `.catch` runs `cleanup` instead), and pending
packets of a promise that rejects are discarded unsent. -/
theorem c5_amended_send_queueing :
    (∀ (st : TransportState) (samples : List ℚ),
      (processBlock ConnState.unresolved st samples).pending =
        st.pending ++ [encodeBlock samples] ∧
      (processBlock ConnState.unresolved st samples).sent = st.sent) ∧
    (∀ st : TransportState,
      (resolveConn st).sent = st.sent ++ st.pending ∧ (resolveConn st).pending = []) ∧
    (∀ (st : TransportState) (samples : List ℚ),
      (processBlock ConnState.failed st samples).sent = st.sent ∧
      (processBlock ConnState.failed st samples).pending = st.pending) ∧
    (∀ st : TransportState,
      (rejectConn st).sent = st.sent ∧ (rejectConn st).pending = []) :=
  ⟨fun _ _ => ⟨rfl, rfl⟩, fun _ => ⟨rfl, rfl⟩, fun _ _ => ⟨rfl, rfl⟩,
   fun _ => ⟨rfl, rfl⟩⟩

/-- C6, counterexample: the claim says that when the connection handle fails to
resolve, teardown is triggered exactly once in total.  But every capture block
chains its own `.catch(() => cleanup())`, so two blocks processed against the
failed handle invoke `cleanup` twice, not once. -/
theorem c6_counterexample :
    (processBlock ConnState.failed
        (processBlock ConnState.failed initTransport [0]) [0]).cleanups = 2 ∧
    (2 : Nat) ≠ 1 :=
  ⟨rfl, by decide⟩

/-- C6, amended: each capture block processed against the failed connection
handle triggers one `cleanup` call (and each `.then` continuation pending at
rejection triggers one more), so teardown is invoked once per failed send, not
once in total; `cleanup` itself is idempotent, so the repeated invocations
release the session's resources only once. -/
theorem c6_amended_per_send_teardown :
    (∀ (st : TransportState) (samples : List ℚ),
      (processBlock ConnState.failed st samples).cleanups = st.cleanups + 1) ∧
    (∀ st : TransportState,
      (rejectConn st).cleanups = st.cleanups + st.pending.length) ∧
    (∀ s : SessionState, cleanupS (cleanupS s) = cleanupS s) :=
  ⟨fun _ _ => rfl, fun _ => rfl, fun _ => rfl⟩

/-- C7, counterexample: the claim says no wraparound occurs for any outbound
sample in [-1.0, 1.0].  At the in-range sample 1.0, the scaled value is
1.0 × 32768 = 32768, which exceeds the signed 16-bit maximum 32767 and wraps to
-32768 when stored into the `Int16Array`. -/
theorem c7_counterexample :
    ((-1 : ℚ) ≤ 1 ∧ (1 : ℚ) ≤ 1) ∧
    truncTowardZero ((1 : ℚ) * 32768) = 32768 ∧
    outboundSample 1 = -32768 ∧
    (-32768 : Int) ≠ 32768 := by
  have ht : truncTowardZero ((1 : ℚ) * 32768) = 32768 := by
    unfold truncTowardZero
    rw [if_pos (by norm_num)]
    norm_num
  refine ⟨⟨by norm_num, le_refl _⟩, ht, ?_, by decide⟩
  unfold outboundSample toInt16
  rw [ht]
  decide

/-- C7, amended: every outbound float sample in [-1.0, 1.0) is converted to a
signed 16-bit integer by multiplying by 32768 (with truncation toward zero) and
no wraparound occurs on that half-open range; at 1.0 itself the value wraps
(see the counterexample).  Every inbound signed 16-bit sample is converted back
to a float by dividing by 32768. -/
theorem c7_amended_sample_scaling :
    (∀ x : ℚ, -1 ≤ x → x < 1 →
      outboundSample x = truncTowardZero (x * 32768) ∧
      -32768 ≤ outboundSample x ∧ outboundSample x < 32768) ∧
    (∀ v : Int, -32768 ≤ v → v < 32768 →
      decodeAudioDataE (int16ToBytes v) 1 = .ok [[((v : Int) : ℚ) / 32768]]) := by
  constructor
  · intro x hx1 hx2
    have hq1 : (-32768 : ℚ) ≤ x * 32768 := by linarith
    have hq2 : x * 32768 < 32768 := by linarith
    have ht : -32768 ≤ truncTowardZero (x * 32768) ∧
        truncTowardZero (x * 32768) < 32768 := by
      unfold truncTowardZero
      split
      case isTrue h =>
        have hlow : (0 : Int) ≤ ⌊x * 32768⌋ := Int.le_floor.mpr (by exact_mod_cast h)
        have hhigh : ⌊x * 32768⌋ < 32768 := Int.floor_lt.mpr (by exact_mod_cast hq2)
        omega
      case isFalse h =>
        push_neg at h
        have hlow : (0 : Int) ≤ ⌊-(x * 32768)⌋ :=
          Int.le_floor.mpr (by push_cast; linarith)
        have hhigh : ⌊-(x * 32768)⌋ < 32769 :=
          Int.floor_lt.mpr (by push_cast; linarith)
        omega
    have heq : outboundSample x = truncTowardZero (x * 32768) :=
      int16OfNat_emod _ ht.1 ht.2
    exact ⟨heq, heq ▸ ht.1, heq ▸ ht.2⟩
  · intro v h1 h2
    have hb : bytesToInt16s (int16ToBytes v) = [v] := by
      have h := bytesToInt16s_int16ToBytes v [] h1 h2
      rw [List.append_nil] at h
      simpa [bytesToInt16s] using h
    have hlen : (int16ToBytes v).length = 2 := rfl
    rw [decodeAudioDataE_ok _ (by rw [hlen]) (by rw [hlen]; omega)]
    rw [hlen]
    simp [hb, List.range_succ]

theorem c7_amended_sample_scaling_witness :
    outboundSample (1 / 2) = truncTowardZero ((1 / 2 : ℚ) * 32768) ∧
    decodeAudioDataE (int16ToBytes 100) 1 = .ok [[((100 : Int) : ℚ) / 32768]] :=
  ⟨(c7_amended_sample_scaling.1 (1 / 2) (by norm_num) (by norm_num)).1,
   c7_amended_sample_scaling.2 100 (by norm_num) (by norm_num)⟩

/-- C8, counterexample: the claim says destroying a session resets the
accumulated transcript.  But `cleanup` never touches `transcription`: tearing
down a session whose transcript is "hello" leaves the transcript "hello". -/
theorem c8_counterexample :
    (cleanupS demoActiveState).transcription = "hello" ∧ "hello" ≠ "" :=
  ⟨rfl, by decide⟩

/-- C8, amended: session destruction (`cleanup`) releases all resources —
session handle, microphone stream, audio contexts, scheduled sources — clears
the activity flags and resets the playback cursor, but leaves the accumulated
transcript unchanged; the transcript is reset by the next start request, not by
destruction. -/
theorem c8_amended_destruction_reset :
    (∀ s : SessionState,
      (cleanupS s).nextStart = 0 ∧ (cleanupS s).sources = [] ∧
      (cleanupS s).sessionPromise = false ∧ (cleanupS s).stream = false ∧
      (cleanupS s).audioContexts = false ∧ (cleanupS s).isActive = false ∧
      (cleanupS s).isConnecting = false ∧
      (cleanupS s).transcription = s.transcription) ∧
    (∀ (out : StartOutcome) (s : SessionState),
      s.isActive = false → s.isConnecting = false →
      (toggleSession out s).transcription = "") := by
  refine ⟨fun s => ⟨rfl, rfl, rfl, rfl, rfl, rfl, rfl, rfl⟩, ?_⟩
  intro out s h1 h2
  unfold toggleSession
  rw [if_neg (by simp [h1, h2])]
  cases out with
  | success => rfl
  | failure msg => rfl

theorem c8_amended_destruction_reset_witness :
    (cleanupS demoActiveState).nextStart = 0 ∧
    (cleanupS demoActiveState).transcription = demoActiveState.transcription ∧
    (toggleSession StartOutcome.success demoIdleState).transcription = "" := by
  have h := c8_amended_destruction_reset
  exact ⟨(h.1 demoActiveState).1, (h.1 demoActiveState).2.2.2.2.2.2.2,
    h.2 StartOutcome.success demoIdleState rfl rfl⟩

/-- C9: Toggle semantics.  A start request issued while the session is already
active or connecting does not start a new session: it runs `cleanup` on the
existing one and returns, leaving no live session handle and both activity
flags cleared — so at most one live session exists per component instance. -/
theorem c9_toggle_semantics (out : StartOutcome) (s : SessionState)
    (h : s.isActive = true ∨ s.isConnecting = true) :
    toggleSession out s = cleanupS s ∧
    (toggleSession out s).isActive = false ∧
    (toggleSession out s).isConnecting = false ∧
    (toggleSession out s).sessionPromise = false := by
  have hb : (s.isActive || s.isConnecting) = true := by
    rcases h with h | h <;> simp [h]
  unfold toggleSession
  rw [if_pos hb]
  exact ⟨rfl, rfl, rfl, rfl⟩

theorem c9_toggle_semantics_witness :
    toggleSession StartOutcome.success demoActiveState = cleanupS demoActiveState ∧
    (toggleSession StartOutcome.success demoActiveState).isActive = false ∧
    (toggleSession StartOutcome.success demoActiveState).isConnecting = false ∧
    (toggleSession StartOutcome.success demoActiveState).sessionPromise = false :=
  c9_toggle_semantics StartOutcome.success demoActiveState (Or.inl rfl)

/-- C10: Teardown preserves the user-visible error message.  `cleanup` clears
session resources, handles, cursor and the activity flags but never touches
`errorMsg`; `onerror` records its message before cleaning up, so the message
survives the teardown; a failed start leaves its recorded message in place; and
it is the next start request (lines 98-99) that clears the message. -/
theorem c10_error_msg_preserved :
    (∀ s : SessionState, (cleanupS s).errorMsg = s.errorMsg) ∧
    (∀ (msg : String) (s : SessionState),
      (onError msg s).errorMsg = some msg ∧
      (onError msg s).isActive = false ∧ (onError msg s).isConnecting = false) ∧
    (∀ (msg : String) (s : SessionState),
      s.isActive = false → s.isConnecting = false →
      (toggleSession (StartOutcome.failure msg) s).errorMsg = some msg) ∧
    (∀ s : SessionState,
      s.isActive = false → s.isConnecting = false →
      (toggleSession StartOutcome.success s).errorMsg = none) := by
  refine ⟨fun _ => rfl, fun _ _ => ⟨rfl, rfl, rfl⟩, ?_, ?_⟩
  · intro msg s h1 h2
    unfold toggleSession
    rw [if_neg (by simp [h1, h2])]
    rfl
  · intro s h1 h2
    unfold toggleSession
    rw [if_neg (by simp [h1, h2])]

theorem c10_error_msg_preserved_witness :
    (cleanupS demoErrorState).errorMsg = some "boom" ∧
    (onError "oops" demoActiveState).errorMsg = some "oops" ∧
    (toggleSession (StartOutcome.failure "down") demoIdleState).errorMsg = some "down" ∧
    (toggleSession StartOutcome.success demoErrorState).errorMsg = none := by
  have h := c10_error_msg_preserved
  exact ⟨h.1 demoErrorState, (h.2.1 "oops" demoActiveState).1,
    h.2.2.1 "down" demoIdleState rfl rfl, h.2.2.2 demoErrorState rfl rfl⟩

end LiveAssistant
